import Mathlib

/-!
Verification of the FolderTree controller core (inheritance calculator,
diff analyzer, privilege-escalation webhook validator, grant executor)
against its natural-language specification.

The Go sources are shallowly embedded: pure Go functions become Lean
functions, Kubernetes API calls become explicit oracle parameters or
explicit state, and Go maps become association lists whose insertion
overwrites the entry for an existing key (last write wins), matching
Go map assignment semantics.  Go map iteration order is unspecified;
the association lists iterate in insertion order, which is one of the
admitted orders, and no theorem below depends on a particular order
beyond that choice.
-/

namespace FolderTreeProof

/-! ## Association lists with Go-map insert/lookup semantics -/

/-- Lookup in an association list: first entry whose key matches.
Lists built with alInsert have unique keys, so this matches Go map access. -/
def alLookup {α : Type} (m : List (String × α)) (k : String) : Option α :=
  match m with
  | [] => none
  | (k', v) :: rest => if k' = k then some v else alLookup rest k

/-- Insert with overwrite: replaces the entry for an existing key in place,
otherwise appends, mirroring a Go map assignment. -/
def alInsert {α : Type} (m : List (String × α)) (k : String) (v : α) : List (String × α) :=
  match m with
  | [] => [(k, v)]
  | (k', v') :: rest => if k' = k then (k, v) :: rest else (k', v') :: alInsert rest k v

/-- The keys of an association list. -/
def alKeys {α : Type} (m : List (String × α)) : List String := m.map (·.1)

theorem alLookup_alInsert_self {α : Type} (m : List (String × α)) (k : String) (v : α) :
    alLookup (alInsert m k v) k = some v := by
  induction m with
  | nil => simp [alInsert, alLookup]
  | cons hd tl ih =>
    obtain ⟨k', v'⟩ := hd
    by_cases h : k' = k
    · simp [alInsert, alLookup, h]
    · simp [alInsert, alLookup, h, ih]

theorem alLookup_alInsert_ne {α : Type} (m : List (String × α)) (k k' : String) (v : α)
    (h : k' ≠ k) : alLookup (alInsert m k v) k' = alLookup m k' := by
  induction m with
  | nil => simp [alInsert, alLookup, Ne.symm h]
  | cons hd tl ih =>
    obtain ⟨k0, v0⟩ := hd
    by_cases h0 : k0 = k
    · subst h0
      simp [alInsert, alLookup, Ne.symm h]
    · by_cases h1 : k0 = k'
      · subst h1
        simp [alInsert, alLookup, h0]
      · simp [alInsert, alLookup, h0, h1, ih]

theorem mem_alInsert {α : Type} {m : List (String × α)} {k : String} {v : α} {kv : String × α}
    (h : kv ∈ alInsert m k v) : kv = (k, v) ∨ kv ∈ m := by
  induction m with
  | nil => simpa [alInsert] using h
  | cons hd tl ih =>
    obtain ⟨k0, v0⟩ := hd
    by_cases h0 : k0 = k
    · simp only [alInsert, if_pos h0, List.mem_cons] at h
      rcases h with h | h
      · exact Or.inl h
      · exact Or.inr (List.mem_cons_of_mem _ h)
    · simp only [alInsert, if_neg h0, List.mem_cons] at h
      rcases h with h | h
      · exact Or.inr (List.mem_cons.mpr (Or.inl h))
      · rcases ih h with h' | h'
        · exact Or.inl h'
        · exact Or.inr (List.mem_cons_of_mem _ h')

theorem alLookup_mem {α : Type} {m : List (String × α)} {k : String} {v : α}
    (h : alLookup m k = some v) : (k, v) ∈ m := by
  induction m with
  | nil => simp [alLookup] at h
  | cons hd tl ih =>
    obtain ⟨k0, v0⟩ := hd
    by_cases h0 : k0 = k
    · subst h0
      simp only [alLookup, if_true, eq_self_iff_true] at h
      injection h with h
      subst h
      exact List.mem_cons_self _ _
    · simp only [alLookup, if_neg h0] at h
      exact List.mem_cons_of_mem _ (ih h)

theorem alKeys_alInsert {α : Type} (m : List (String × α)) (k : String) (v : α) :
    alKeys (alInsert m k v) = if k ∈ alKeys m then alKeys m else alKeys m ++ [k] := by
  induction m with
  | nil => simp [alInsert, alKeys]
  | cons hd tl ih =>
    obtain ⟨k0, v0⟩ := hd
    by_cases h0 : k0 = k
    · subst h0
      simp [alInsert, alKeys]
    · simp only [alInsert, if_neg h0, alKeys, List.map_cons, List.mem_cons]
      simp only [alKeys] at ih
      rw [ih]
      by_cases hk : k ∈ tl.map (·.1)
      · simp [hk, Ne.symm h0]
      · simp [hk, Ne.symm h0]

theorem alKeys_nodup_alInsert {α : Type} {m : List (String × α)} (k : String) (v : α)
    (h : (alKeys m).Nodup) : (alKeys (alInsert m k v)).Nodup := by
  rw [alKeys_alInsert]
  by_cases hk : k ∈ alKeys m
  · simpa [hk]
  · simpa [hk] using List.Nodup.append h (List.nodup_singleton k)
      (by simpa [List.disjoint_singleton] using hk)

/-- With unique keys, every entry is found by looking up its key. -/
theorem alLookup_of_mem_nodup {α : Type} {m : List (String × α)} {kv : String × α}
    (hnd : (alKeys m).Nodup) (h : kv ∈ m) : alLookup m kv.1 = some kv.2 := by
  induction m with
  | nil => simp at h
  | cons hd tl ih =>
    obtain ⟨k0, v0⟩ := hd
    simp only [alKeys, List.map_cons, List.nodup_cons] at hnd
    rcases List.mem_cons.mp h with h | h
    · subst h
      simp [alLookup]
    · have hne : k0 ≠ kv.1 := by
        intro he
        exact hnd.1 (he ▸ List.mem_map_of_mem (·.1) h)
      simp only [alLookup, if_neg hne]
      exact ih hnd.2 h

/-! ## Data model (api/v1alpha1/foldertree_types.go and rbacv1 types) -/

/-- rbacv1.Subject: Kind, APIGroup, Name, Namespace (namespace rendered as ns,
since namespace is a Lean keyword). -/
structure Subject where
  kind : String
  apiGroup : String
  name : String
  ns : String
deriving DecidableEq, Repr

/-- rbacv1.RoleRef. -/
structure RoleRef where
  apiGroup : String
  kind : String
  name : String
deriving DecidableEq, Repr

/-- RoleBindingTemplate: name, subjects, roleRef and the optional propagate
flag (absent or false means no inheritance, the secure default). -/
structure RoleBindingTemplate where
  name : String
  subjects : List Subject
  roleRef : RoleRef
  propagate : Option Bool
deriving DecidableEq, Repr

/-- Folder: a flat folder with inline templates and assigned namespaces. -/
structure Folder where
  name : String
  roleBindingTemplates : List RoleBindingTemplate
  namespaces : List String
deriving DecidableEq, Repr

/-! TreeNode: name plus recursive subfolders.  The Go field is a
[]TreeNode; it is encoded with a dedicated mutually-inductive list type so
that all tree functions are structurally recursive (hence computable by the
kernel). -/

mutual
inductive TreeNode where
  | mk : String → TreeNodeList → TreeNode
inductive TreeNodeList where
  | nil : TreeNodeList
  | cons : TreeNode → TreeNodeList → TreeNodeList
end

def TreeNode.name : TreeNode → String
  | .mk n _ => n

def TreeNode.subfolders : TreeNode → TreeNodeList
  | .mk _ s => s

/-- View of the subfolder list as an ordinary list, used only in statements. -/
def TreeNodeList.toList : TreeNodeList → List TreeNode
  | .nil => []
  | .cons n rest => n :: TreeNodeList.toList rest

/-- FolderTreeSpec: optional tree plus the flat folder collection. -/
structure FolderTreeSpec where
  tree : Option TreeNode
  folders : List Folder

/-- FolderTree resource: metadata.name plus spec. -/
structure FolderTree where
  name : String
  spec : FolderTreeSpec

/-- rbacv1.RoleBinding as built and compared by this controller: name,
namespace, managed labels, subjects and roleRef.  Owner references are set
only on the controller path and never read by the compared logic, so they
are not modeled. -/
structure RoleBinding where
  name : String
  ns : String
  labels : List (String × String)
  subjects : List Subject
  roleRef : RoleRef
deriving DecidableEq, Repr

/-! ## RoleBindingBuilder (internal/rbac, BuildRoleBindingFromTemplate) -/

/-- The tracking label key identifying the owning FolderTree. -/
def treeLabelKey : String := "foldertree.rbac.kubevirt.io/tree"

/-- The derived RoleBinding name: foldertree-(tree name)-(template name). -/
def roleBindingName (folderTreeName templateName : String) : String :=
  "foldertree-" ++ folderTreeName ++ "-" ++ templateName

/-- BuildRoleBindingFromTemplate.  ftName is the builder FolderTree name
(rb.FolderTree.Name in Go); it feeds both the derived name and the tracking
labels.  The SetControllerReference branch cannot fail for a cluster-scoped
owner and is not modeled. -/
def BuildRoleBindingFromTemplate (ftName : String) (ns : String)
    (t : RoleBindingTemplate) : RoleBinding :=
  { name := roleBindingName ftName t.name
    ns := ns
    labels := [("app.kubernetes.io/managed-by", "foldertree-controller"),
               (treeLabelKey, ftName),
               ("foldertree.rbac.kubevirt.io/role-binding-template", t.name)]
    subjects := t.subjects
    roleRef := t.roleRef }

/-- GenerateRandomRoleBindingName; the nanosecond clock reading is passed
explicitly to keep the function pure. -/
def GenerateRandomRoleBindingName (folderTreeName permissionName : String)
    (nowNano : Int) : String :=
  "dryrun-foldertree-" ++ folderTreeName ++ "-" ++ permissionName ++ "-" ++ toString nowNano

/-- DesiredRoleBinding: a RoleBinding that should exist, with the namespace
and originating template. -/
structure DesiredRoleBinding where
  ns : String
  roleBindingTemplate : RoleBindingTemplate
  roleBinding : RoleBinding
deriving DecidableEq, Repr

/-- The desired-state map, keyed namespace/name like the Go map. -/
abbrev DMap : Type := List (String × DesiredRoleBinding)

/-- The namespace/name key used by all the desired/existing maps. -/
def nsNameKey (ns rbName : String) : String := ns ++ "/" ++ rbName

/-! ## InheritanceCalculator (internal/rbac, CalculateDesiredRoleBindings) -/

/-- The folder-name-to-folder map built at the start of
CalculateDesiredRoleBindings; a later folder with a duplicate name
overwrites an earlier one, like the Go map build loop. -/
def folderMapLookup (folders : List Folder) (n : String) : Option Folder :=
  folders.foldl (fun acc f => if f.name = n then some f else acc) none

/-- The desired entry recorded for one namespace and template. -/
def mkDesired (ftName ns : String) (t : RoleBindingTemplate) : DesiredRoleBinding :=
  { ns := ns, roleBindingTemplate := t,
    roleBinding := BuildRoleBindingFromTemplate ftName ns t }

/-- Record one grant in the desired map under its namespace/name key. -/
def insertDesired (ftName ns : String) (t : RoleBindingTemplate) (d : DMap) : DMap :=
  alInsert d (nsNameKey ns (roleBindingName ftName t.name)) (mkDesired ftName ns t)

/-- Inner loop of the calculator: emit one grant per template of the merged
list for a fixed namespace. -/
def insertTemplates (ftName ns : String) (ts : List RoleBindingTemplate) (d : DMap) : DMap :=
  ts.foldl (fun d t => insertDesired ftName ns t d) d

/-- Emit grants for every namespace of a folder and every merged template. -/
def insertFolderGrants (ftName : String) (namespaces : List String)
    (ts : List RoleBindingTemplate) (d : DMap) : DMap :=
  namespaces.foldl (fun d ns => insertTemplates ftName ns ts d) d

/-- The propagation check: template.Propagate is non-nil and true. -/
def propagates (t : RoleBindingTemplate) : Bool := t.propagate = some true

/-! calculateFromTreeNode: recursive descent merging inherited templates
with the folder found under the node name (if any); handing down
inherited plus the own templates whose propagate flag is set. -/

mutual
def calculateFromTreeNode (ftName : String) (folders : List Folder) (node : TreeNode)
    (inherited : List RoleBindingTemplate) (desired : DMap) : DMap :=
  match node with
  | .mk name subs =>
    match folderMapLookup folders name with
    | some folder =>
      let d1 := insertFolderGrants ftName folder.namespaces
        (inherited ++ folder.roleBindingTemplates) desired
      let inh1 := inherited ++ folder.roleBindingTemplates.filter propagates
      calculateFromSubfolders ftName folders subs inh1 d1
    | none =>
      calculateFromSubfolders ftName folders subs inherited desired
def calculateFromSubfolders (ftName : String) (folders : List Folder) (nodes : TreeNodeList)
    (inherited : List RoleBindingTemplate) (desired : DMap) : DMap :=
  match nodes with
  | .nil => desired
  | .cons n rest =>
    calculateFromSubfolders ftName folders rest inherited
      (calculateFromTreeNode ftName folders n inherited desired)
end

/-! isInTreeNode / isInTree: whether a folder name appears in the tree. -/

mutual
def isInTreeNode (folderName : String) : TreeNode → Bool
  | .mk n subs => folderName = n || isInTreeNodeList folderName subs
def isInTreeNodeList (folderName : String) : TreeNodeList → Bool
  | .nil => false
  | .cons c rest => isInTreeNode folderName c || isInTreeNodeList folderName rest
end

def isInTree (folderName : String) : Option TreeNode → Bool
  | none => false
  | some t => isInTreeNode folderName t

/-- CalculateDesiredRoleBindings.  The Go function receives the FolderTree
being walked and a separate RoleBindingBuilder; the builder FolderTree name
(which the webhook update path sets to the new object) is the explicit
ftName argument, while tree and folders come from ft. -/
def CalculateDesiredRoleBindings (ftName : String) (ft : FolderTree) : DMap :=
  let afterTree :=
    match ft.spec.tree with
    | some root => calculateFromTreeNode ftName ft.spec.folders root [] []
    | none => []
  ft.spec.folders.foldl (fun d folder =>
    if isInTree folder.name ft.spec.tree then d
    else insertFolderGrants ftName folder.namespaces folder.roleBindingTemplates d)
    afterTree

/-! ## DiffAnalyzer shared comparison (internal/rbac diff logic) -/

/-- The kind:name:namespace:apiGroup key used by subjectsEqual.  The Go
format string joins the four fields with colons. -/
def subjectKey (s : Subject) : String :=
  s.kind ++ ":" ++ s.name ++ ":" ++ s.ns ++ ":" ++ s.apiGroup

/-- The key-to-subject Go map built from a subject list (later duplicates of
a key overwrite earlier ones). -/
def subjectMap (l : List Subject) : List (String × Subject) :=
  l.foldl (fun m s => alInsert m (subjectKey s) s) []

/-- subjectsEqual: length check, then every entry of the first map must be
present and equal in the second map. -/
def subjectsEqual (a b : List Subject) : Bool :=
  if a.length ≠ b.length then false
  else
    (subjectMap a).all fun ks =>
      match alLookup (subjectMap b) ks.1 with
      | some sb => ks.2 = sb
      | none => false

/-- The label loop of needsUpdate: some managed label is missing or differs. -/
def labelsNeedChange (existing desired : List (String × String)) : Bool :=
  desired.any fun kv =>
    match alLookup existing kv.1 with
    | some ev => ev ≠ kv.2
    | none => true

/-- needsUpdate: subjects, roleRef, then managed labels.  The controller
DiffAnalyzer and the webhook WebhookDiffAnalyzer carry two textually
identical copies of this function; it is embedded once. -/
def needsUpdate (existing desired : RoleBinding) : Bool :=
  if ¬ subjectsEqual existing.subjects desired.subjects then true
  else if existing.roleRef ≠ desired.roleRef then true
  else labelsNeedChange existing.labels desired.labels

/-- OperationType (create / update / delete). -/
inductive OperationType where
  | create
  | update
  | delete
deriving DecidableEq, Repr

/-- RoleBindingOperation: operation type, namespace, originating template,
and the existing / desired RoleBindings (absent exactly as the Go nils). -/
structure RoleBindingOperation where
  type : OperationType
  ns : String
  roleBindingTemplate : RoleBindingTemplate
  existingRoleBinding : Option RoleBinding
  desiredRoleBinding : Option RoleBinding
deriving DecidableEq, Repr

/-- The RoleBinding name printed by RoleBindingOperation.String: the desired
name for a create, the existing name otherwise.  The Go code dereferences
the corresponding pointer; the empty-string default covers inputs on which
Go would panic and which never arise from the analyzers. -/
def displayedName (op : RoleBindingOperation) : String :=
  match op.type with
  | .create => (op.desiredRoleBinding.map (·.name)).getD ""
  | _ => (op.existingRoleBinding.map (·.name)).getD ""

/-- RoleBindingOperation.String — the human-readable operation description
(single quotes written as escapes).  The delete branch prints no template
name. -/
def opString (op : RoleBindingOperation) : String :=
  match op.type with
  | .create =>
    "CREATE RoleBinding \x27" ++ displayedName op ++ "\x27 in namespace \x27" ++ op.ns ++
      "\x27 for template \x27" ++ op.roleBindingTemplate.name ++ "\x27"
  | .update =>
    "UPDATE RoleBinding \x27" ++ displayedName op ++ "\x27 in namespace \x27" ++ op.ns ++
      "\x27 for template \x27" ++ op.roleBindingTemplate.name ++ "\x27"
  | .delete =>
    "DELETE RoleBinding \x27" ++ displayedName op ++ "\x27 in namespace \x27" ++ op.ns ++ "\x27"

/-! ## WebhookDiffAnalyzer (internal/rbac webhook diff, compareDesiredStates) -/

/-- compareDesiredStates: creates and updates from the new map, then
deletes from the old map. -/
def compareDesiredStates (oldD newD : DMap) : List RoleBindingOperation :=
  (newD.filterMap fun kv =>
    match alLookup oldD kv.1 with
    | some oldRB =>
      if needsUpdate oldRB.roleBinding kv.2.roleBinding then
        some { type := .update, ns := kv.2.ns,
               roleBindingTemplate := kv.2.roleBindingTemplate,
               existingRoleBinding := some oldRB.roleBinding,
               desiredRoleBinding := some kv.2.roleBinding }
      else none
    | none =>
      some { type := .create, ns := kv.2.ns,
             roleBindingTemplate := kv.2.roleBindingTemplate,
             existingRoleBinding := none,
             desiredRoleBinding := some kv.2.roleBinding }) ++
  (oldD.filterMap fun kv =>
    match alLookup newD kv.1 with
    | some _ => none
    | none =>
      some { type := .delete, ns := kv.2.ns,
             roleBindingTemplate := kv.2.roleBindingTemplate,
             existingRoleBinding := some kv.2.roleBinding,
             desiredRoleBinding := none })

/-- AnalyzeFolderTreeDiff: desired state of the old FolderTree (empty when
absent) against the new one.  Both sides are computed with the caller
builder, whose FolderTree — hence the derived names and tracking labels —
is the new object (see validateRBACAuthorizationUpdate). -/
def AnalyzeFolderTreeDiff (oldFT : Option FolderTree) (newFT : FolderTree) :
    List RoleBindingOperation :=
  let oldD := match oldFT with
    | some o => CalculateDesiredRoleBindings newFT.name o
    | none => []
  compareDesiredStates oldD (CalculateDesiredRoleBindings newFT.name newFT)

/-! ## Controller DiffAnalyzer against live state (AnalyzeDiff) -/

/-- The live cluster as the diff and executor observe it: the set of
existing namespaces and the RoleBindings present. -/
structure ClusterState where
  namespaces : List String
  roleBindings : List RoleBinding

/-- getExistingRoleBindings: list RoleBindings carrying the policy tracking
label, keyed namespace/name. -/
def getExistingRoleBindings (cluster : ClusterState) (ftName : String) :
    List (String × RoleBinding) :=
  (cluster.roleBindings.filter fun rb =>
    alLookup rb.labels treeLabelKey = some ftName).foldl
    (fun m rb => alInsert m (nsNameKey rb.ns rb.name) rb) []

/-- compareAndGenerateOperations: creates and updates from the desired map,
deletes for live RoleBindings no longer desired (with an empty template). -/
def compareAndGenerateOperations (existing : List (String × RoleBinding))
    (desired : DMap) : List RoleBindingOperation :=
  (desired.filterMap fun kv =>
    match alLookup existing kv.1 with
    | some ex =>
      if needsUpdate ex kv.2.roleBinding then
        some { type := .update, ns := kv.2.ns,
               roleBindingTemplate := kv.2.roleBindingTemplate,
               existingRoleBinding := some ex,
               desiredRoleBinding := some kv.2.roleBinding }
      else none
    | none =>
      some { type := .create, ns := kv.2.ns,
             roleBindingTemplate := kv.2.roleBindingTemplate,
             existingRoleBinding := none,
             desiredRoleBinding := some kv.2.roleBinding }) ++
  (existing.filterMap fun kv =>
    match alLookup desired kv.1 with
    | some _ => none
    | none =>
      some { type := .delete, ns := kv.2.ns,
             roleBindingTemplate := ⟨"", [], ⟨"", "", ""⟩, none⟩,
             existingRoleBinding := some kv.2,
             desiredRoleBinding := none })

/-- AnalyzeDiff: live labeled RoleBindings versus the desired set of the
FolderTree (controller path: builder name is the FolderTree own name). -/
def AnalyzeDiff (cluster : ClusterState) (ft : FolderTree) : List RoleBindingOperation :=
  compareAndGenerateOperations (getExistingRoleBindings cluster ft.name)
    (CalculateDesiredRoleBindings ft.name ft)

/-! ## AccessValidator (internal/webhook/v1alpha1/foldertree_webhook.go) -/

/-- admission request UserInfo. -/
structure UserInfo where
  username : String
  groups : List String
  uid : String

/-- The admission request data the validator reads: the requester identity
and the sub-resource of the request.  An unavailable request context is the
none case of Option AdmissionRequest. -/
structure AdmissionRequest where
  userInfo : UserInfo
  subResource : String

/-- The verb of one impersonated dry-run attempt against the backend. -/
inductive ApiVerb where
  | create
  | update
  | delete
deriving DecidableEq, Repr

/-- The impersonated dry-run backend: given a verb and the RoleBinding sent,
none means the apiserver admitted the dry-run, some e is the error text.
This is the only effect of the impersonation client the validator observes. -/
def DryRunOracle : Type := ApiVerb → RoleBinding → Option String

/-- validateCreateOperation: dry-run create of a copy renamed with the
collision-proof synthetic name. -/
def validateCreateOperation (attempt : DryRunOracle) (nowNano : Int)
    (op : RoleBindingOperation) : Option String :=
  match op.desiredRoleBinding with
  | some rb =>
    let test := { rb with
      name := GenerateRandomRoleBindingName rb.name op.roleBindingTemplate.name nowNano }
    match attempt .create test with
    | some e => some ("dry-run creation failed (user lacks required permissions): " ++ e)
    | none => none
  | none => none

/-- validateUpdateOperation: dry-run update of the existing RoleBinding with
the desired subjects, roleRef and labels applied to a copy. -/
def validateUpdateOperation (attempt : DryRunOracle)
    (op : RoleBindingOperation) : Option String :=
  match op.existingRoleBinding, op.desiredRoleBinding with
  | some ex, some des =>
    let test := { ex with subjects := des.subjects, roleRef := des.roleRef,
                          labels := des.labels }
    match attempt .update test with
    | some e => some ("dry-run update failed (user lacks required permissions): " ++ e)
    | none => none
  | _, _ => none

/-- validateDeleteOperation: dry-run delete of the existing RoleBinding. -/
def validateDeleteOperation (attempt : DryRunOracle)
    (op : RoleBindingOperation) : Option String :=
  match op.existingRoleBinding with
  | some ex =>
    match attempt .delete ex with
    | some e => some ("dry-run deletion failed (user lacks required permissions): " ++ e)
    | none => none
  | none => none

/-- validateSingleOperation dispatch. -/
def validateSingleOperation (attempt : DryRunOracle) (nowNano : Int)
    (op : RoleBindingOperation) : Option String :=
  match op.type with
  | .create => validateCreateOperation attempt nowNano op
  | .update => validateUpdateOperation attempt op
  | .delete => validateDeleteOperation attempt op

/-- validateOperationsWithImpersonation: attempt every operation in order,
abort on the first failure wrapping the operation description.  Returned
alongside (pure instrumentation, absent from the Go signature) is the list
of operations actually attempted. -/
def validateOperationsWithImpersonation (attempt : DryRunOracle) (nowNano : Int) :
    List RoleBindingOperation → Option String × List RoleBindingOperation
  | [] => (none, [])
  | op :: rest =>
    match validateSingleOperation attempt nowNano op with
    | some e => (some ("failed to validate " ++ opString op ++ ": " ++ e), [op])
    | none =>
      let r := validateOperationsWithImpersonation attempt nowNano rest
      (r.1, op :: r.2)

/-- validateRBACAuthorizationUpdate: fail open without an admission request,
skip status sub-resource writes, otherwise impersonation-validate the spec
diff between the old and new FolderTree.  The create path
(validateRBACAuthorization) is this function with oldFT none. -/
def validateRBACAuthorizationUpdate (req : Option AdmissionRequest)
    (attempt : DryRunOracle) (nowNano : Int)
    (oldFT : Option FolderTree) (newFT : FolderTree) :
    Option String × List RoleBindingOperation :=
  match req with
  | none => (none, [])
  | some r =>
    if r.subResource = "status" then (none, [])
    else
      let res := validateOperationsWithImpersonation attempt nowNano
        (AnalyzeFolderTreeDiff oldFT newFT)
      ((res.1.map fun e => "privilege escalation prevented: " ++ e), res.2)

/-- The loop of validateRBACAuthorizationDelete over the full desired set,
wrapping each failure with operation, namespace and template, and recording
the attempted delete operations. -/
def deleteValidationLoop (attempt : DryRunOracle) :
    DMap → Option String × List RoleBindingOperation
  | [] => (none, [])
  | (_, dv) :: rest =>
    let op : RoleBindingOperation :=
      { type := .delete, ns := dv.ns, roleBindingTemplate := dv.roleBindingTemplate,
        existingRoleBinding := some dv.roleBinding, desiredRoleBinding := none }
    match validateDeleteOperation attempt op with
    | some e =>
      (some ("privilege escalation prevented: failed to validate DELETE RoleBinding \x27" ++
        dv.roleBinding.name ++ "\x27 in namespace \x27" ++ dv.ns ++ "\x27 for template \x27" ++
        dv.roleBindingTemplate.name ++ "\x27: " ++ e), [op])
    | none =>
      let r := deleteValidationLoop attempt rest
      (r.1, op :: r.2)

/-- validateRBACAuthorizationDelete: fail open without an admission request,
bypass for the two trusted system identities, otherwise impersonation
dry-run DELETE every grant of the full computed set (no diff). -/
def validateRBACAuthorizationDelete (req : Option AdmissionRequest)
    (attempt : DryRunOracle) (ft : FolderTree) :
    Option String × List RoleBindingOperation :=
  match req with
  | none => (none, [])
  | some r =>
    if r.userInfo.username = "system:serviceaccount:folders-system:folder-controller-manager" ∨
        r.userInfo.username = "system:admin" then (none, [])
    else
      deleteValidationLoop attempt (CalculateDesiredRoleBindings ft.name ft)

/-! ## GrantExecutor (internal/controller, executeCreateOperation) -/

/-- executeCreateOperation: consult the namespace oracle; a missing target
namespace is skipped silently (nil error, nothing created); otherwise
create, failing if the name is already taken in that namespace. -/
def executeCreateOperation (state : ClusterState) (op : RoleBindingOperation) :
    Except String ClusterState :=
  if op.ns ∈ state.namespaces then
    match op.desiredRoleBinding with
    | some rb =>
      if state.roleBindings.any fun e => e.ns = rb.ns ∧ e.name = rb.name then
        .error "rolebindings already exists"
      else
        .ok { state with roleBindings := state.roleBindings ++ [rb] }
    | none => .error "missing desired RoleBinding"
  else
    .ok state

/-! ## Invariants of the desired-state map -/

/-- Every value of the map satisfies P. -/
def DMapAll (P : DesiredRoleBinding → Prop) (m : DMap) : Prop :=
  ∀ kv ∈ m, P kv.2

theorem dmapAll_alInsert {P : DesiredRoleBinding → Prop} {m : DMap}
    {k : String} {v : DesiredRoleBinding}
    (hm : DMapAll P m) (hv : P v) : DMapAll P (alInsert m k v) := by
  intro kv hkv
  rcases mem_alInsert hkv with h | h
  · rw [h]
    exact hv
  · exact hm kv h

theorem dmapAll_insertTemplates {P : DesiredRoleBinding → Prop} {ftName ns : String}
    {ts : List RoleBindingTemplate} {d : DMap}
    (hts : ∀ t ∈ ts, P (mkDesired ftName ns t)) (hd : DMapAll P d) :
    DMapAll P (insertTemplates ftName ns ts d) := by
  induction ts generalizing d with
  | nil => exact hd
  | cons t rest ih =>
    exact ih (fun t' ht' => hts t' (List.mem_cons_of_mem _ ht'))
      (dmapAll_alInsert hd (hts t (List.mem_cons_self _ _)))

theorem dmapAll_insertFolderGrants {P : DesiredRoleBinding → Prop} {ftName : String}
    {nss : List String} {ts : List RoleBindingTemplate} {d : DMap}
    (hts : ∀ ns ∈ nss, ∀ t ∈ ts, P (mkDesired ftName ns t)) (hd : DMapAll P d) :
    DMapAll P (insertFolderGrants ftName nss ts d) := by
  induction nss generalizing d with
  | nil => exact hd
  | cons ns rest ih =>
    exact ih (fun ns' hns' => hts ns' (List.mem_cons_of_mem _ hns'))
      (dmapAll_insertTemplates (hts ns (List.mem_cons_self _ _)) hd)

theorem foldl_folder_lookup_mem : ∀ (l : List Folder) (acc : Option Folder)
    (n : String) (f : Folder),
    l.foldl (fun acc g => if g.name = n then some g else acc) acc = some f →
    f ∈ l ∨ acc = some f := by
  intro l
  induction l with
  | nil => exact fun acc n f h => Or.inr h
  | cons g rest ih =>
    intro acc n f h
    simp only [List.foldl_cons] at h
    rcases ih _ n f h with h' | h'
    · exact Or.inl (List.mem_cons_of_mem _ h')
    · by_cases hg : g.name = n
      · rw [if_pos hg] at h'
        injection h' with h'
        exact Or.inl (h' ▸ List.mem_cons_self _ _)
      · rw [if_neg hg] at h'
        exact Or.inr h'

theorem folderMapLookup_mem {folders : List Folder} {n : String} {f : Folder}
    (h : folderMapLookup folders n = some f) : f ∈ folders := by
  rcases foldl_folder_lookup_mem folders none n f h with h' | h'
  · exact h'
  · simp at h'

theorem propagates_iff {t : RoleBindingTemplate} :
    propagates t = true ↔ t.propagate = some true := by
  simp [propagates]

mutual
theorem dmapAll_calculateFromTreeNode {P : DesiredRoleBinding → Prop} {ftName : String}
    {folders : List Folder} (node : TreeNode)
    {inherited : List RoleBindingTemplate} {desired : DMap}
    (hOwn : ∀ f ∈ folders, ∀ ns ∈ f.namespaces, ∀ t ∈ f.roleBindingTemplates,
      P (mkDesired ftName ns t))
    (hProp : ∀ t, propagates t = true → ∀ f ∈ folders, ∀ ns ∈ f.namespaces,
      P (mkDesired ftName ns t))
    (hInh : ∀ t ∈ inherited, propagates t = true)
    (hd : DMapAll P desired) :
    DMapAll P (calculateFromTreeNode ftName folders node inherited desired) := by
  rcases node with ⟨name, subs⟩
  rw [calculateFromTreeNode]
  cases hlook : folderMapLookup folders name with
  | none =>
    exact dmapAll_calculateFromSubfolders subs hOwn hProp hInh hd
  | some folder =>
    have hmem : folder ∈ folders := folderMapLookup_mem hlook
    refine dmapAll_calculateFromSubfolders subs hOwn hProp ?_ ?_
    · intro t ht
      rcases List.mem_append.mp ht with h | h
      · exact hInh t h
      · exact (List.mem_filter.mp h).2
    · refine dmapAll_insertFolderGrants ?_ hd
      intro ns hns t ht
      rcases List.mem_append.mp ht with h | h
      · exact hProp t (hInh t h) folder hmem ns hns
      · exact hOwn folder hmem ns hns t h
theorem dmapAll_calculateFromSubfolders {P : DesiredRoleBinding → Prop} {ftName : String}
    {folders : List Folder} (nodes : TreeNodeList)
    {inherited : List RoleBindingTemplate} {desired : DMap}
    (hOwn : ∀ f ∈ folders, ∀ ns ∈ f.namespaces, ∀ t ∈ f.roleBindingTemplates,
      P (mkDesired ftName ns t))
    (hProp : ∀ t, propagates t = true → ∀ f ∈ folders, ∀ ns ∈ f.namespaces,
      P (mkDesired ftName ns t))
    (hInh : ∀ t ∈ inherited, propagates t = true)
    (hd : DMapAll P desired) :
    DMapAll P (calculateFromSubfolders ftName folders nodes inherited desired) := by
  cases nodes with
  | nil => exact hd
  | cons n rest =>
    rw [calculateFromSubfolders]
    exact dmapAll_calculateFromSubfolders rest hOwn hProp hInh
      (dmapAll_calculateFromTreeNode n hOwn hProp hInh hd)
end

/-- Every value of the computed desired map is an own-folder grant or a
propagate-true grant placed into a folder of the policy. -/
theorem dmapAll_calc {P : DesiredRoleBinding → Prop} {ftName : String} {ft : FolderTree}
    (hOwn : ∀ f ∈ ft.spec.folders, ∀ ns ∈ f.namespaces, ∀ t ∈ f.roleBindingTemplates,
      P (mkDesired ftName ns t))
    (hProp : ∀ t, propagates t = true → ∀ f ∈ ft.spec.folders, ∀ ns ∈ f.namespaces,
      P (mkDesired ftName ns t)) :
    DMapAll P (CalculateDesiredRoleBindings ftName ft) := by
  rw [CalculateDesiredRoleBindings]
  have hbase : DMapAll P (match ft.spec.tree with
      | some root => calculateFromTreeNode ftName ft.spec.folders root [] []
      | none => []) := by
    cases ft.spec.tree with
    | none => intro kv hkv; simp at hkv
    | some root =>
      exact dmapAll_calculateFromTreeNode root hOwn hProp (by simp)
        (by intro kv hkv; simp at hkv)
  revert hbase
  generalize (match ft.spec.tree with
      | some root => calculateFromTreeNode ftName ft.spec.folders root [] []
      | none => []) = base
  intro hbase
  suffices H : ∀ (l : List Folder), (∀ f ∈ l, f ∈ ft.spec.folders) → ∀ (d : DMap),
      DMapAll P d →
      DMapAll P (l.foldl (fun d folder =>
        if isInTree folder.name ft.spec.tree then d
        else insertFolderGrants ftName folder.namespaces folder.roleBindingTemplates d) d) by
    exact H ft.spec.folders (fun f hf => hf) base hbase
  intro l
  induction l with
  | nil => exact fun _ d hd => hd
  | cons g rest ih =>
    intro hsub d hd
    simp only [List.foldl_cons]
    refine ih (fun f hf => hsub f (List.mem_cons_of_mem _ hf)) _ ?_
    by_cases hg : isInTree g.name ft.spec.tree
    · simpa [hg] using hd
    · simp only [hg, if_false, Bool.false_eq_true]
      exact dmapAll_insertFolderGrants
        (fun ns hns t ht => hOwn g (hsub g (List.mem_cons_self _ _)) ns hns t ht) hd

/-! ## Unique keys of the computed desired map -/

theorem alKeys_nodup_insertTemplates {ftName ns : String}
    {ts : List RoleBindingTemplate} {d : DMap}
    (hd : (alKeys d).Nodup) : (alKeys (insertTemplates ftName ns ts d)).Nodup := by
  induction ts generalizing d with
  | nil => exact hd
  | cons t rest ih => exact ih (alKeys_nodup_alInsert _ _ hd)

theorem alKeys_nodup_insertFolderGrants {ftName : String}
    {nss : List String} {ts : List RoleBindingTemplate} {d : DMap}
    (hd : (alKeys d).Nodup) : (alKeys (insertFolderGrants ftName nss ts d)).Nodup := by
  induction nss generalizing d with
  | nil => exact hd
  | cons ns rest ih => exact ih (alKeys_nodup_insertTemplates hd)

mutual
theorem alKeys_nodup_calculateFromTreeNode {ftName : String} {folders : List Folder}
    (node : TreeNode) {inherited : List RoleBindingTemplate} {desired : DMap}
    (hd : (alKeys desired).Nodup) :
    (alKeys (calculateFromTreeNode ftName folders node inherited desired)).Nodup := by
  rcases node with ⟨name, subs⟩
  rw [calculateFromTreeNode]
  cases folderMapLookup folders name with
  | none => exact alKeys_nodup_calculateFromSubfolders subs hd
  | some folder =>
    exact alKeys_nodup_calculateFromSubfolders subs (alKeys_nodup_insertFolderGrants hd)
theorem alKeys_nodup_calculateFromSubfolders {ftName : String} {folders : List Folder}
    (nodes : TreeNodeList) {inherited : List RoleBindingTemplate} {desired : DMap}
    (hd : (alKeys desired).Nodup) :
    (alKeys (calculateFromSubfolders ftName folders nodes inherited desired)).Nodup := by
  cases nodes with
  | nil => exact hd
  | cons n rest =>
    rw [calculateFromSubfolders]
    exact alKeys_nodup_calculateFromSubfolders rest
      (alKeys_nodup_calculateFromTreeNode n hd)
end

theorem alKeys_nodup_calc {ftName : String} {ft : FolderTree} :
    (alKeys (CalculateDesiredRoleBindings ftName ft)).Nodup := by
  rw [CalculateDesiredRoleBindings]
  have hbase : (alKeys (match ft.spec.tree with
      | some root => calculateFromTreeNode ftName ft.spec.folders root [] []
      | none => [])).Nodup := by
    cases ft.spec.tree with
    | none => simp [alKeys]
    | some root => exact alKeys_nodup_calculateFromTreeNode root (by simp [alKeys])
  revert hbase
  generalize (match ft.spec.tree with
      | some root => calculateFromTreeNode ftName ft.spec.folders root [] []
      | none => []) = base
  intro hbase
  induction ft.spec.folders generalizing base with
  | nil => exact hbase
  | cons g rest ih =>
    simp only [List.foldl_cons]
    refine ih _ ?_
    by_cases hg : isInTree g.name ft.spec.tree
    · simpa [hg] using hbase
    · simp only [hg, if_false, Bool.false_eq_true]
      exact alKeys_nodup_insertFolderGrants hbase

/-! ## Reflexivity facts about the diff comparison -/

theorem alKeys_nodup_subjectFold (l : List Subject) (m : List (String × Subject))
    (hm : (alKeys m).Nodup) :
    (alKeys (l.foldl (fun m s => alInsert m (subjectKey s) s) m)).Nodup := by
  induction l generalizing m with
  | nil => exact hm
  | cons s rest ih => exact ih _ (alKeys_nodup_alInsert _ _ hm)

theorem alKeys_nodup_subjectMap (l : List Subject) : (alKeys (subjectMap l)).Nodup :=
  alKeys_nodup_subjectFold l [] (by simp [alKeys])

/-- subjectsEqual is reflexive. -/
theorem subjectsEqual_refl (a : List Subject) : subjectsEqual a a = true := by
  simp only [subjectsEqual]
  rw [if_neg (by simp)]
  rw [List.all_eq_true]
  intro ks hks
  rw [alLookup_of_mem_nodup (alKeys_nodup_subjectMap a) hks]
  simp

/-- needsUpdate is reflexive on a RoleBinding whose label keys are unique. -/
theorem needsUpdate_self {rb : RoleBinding} (h : (alKeys rb.labels).Nodup) :
    needsUpdate rb rb = false := by
  simp only [needsUpdate, subjectsEqual_refl, not_true, if_false, ne_eq,
    not_false_eq_true, Bool.not_eq_true]
  rw [labelsNeedChange, List.any_eq_false]
  intro kv hkv
  rw [alLookup_of_mem_nodup h hkv]
  simp

/-- The labels produced by the builder always have unique keys. -/
theorem alKeys_nodup_build_labels (ftName ns : String) (t : RoleBindingTemplate) :
    (alKeys (BuildRoleBindingFromTemplate ftName ns t).labels).Nodup := by
  simp only [BuildRoleBindingFromTemplate, alKeys, List.map_cons, List.map_nil]
  decide

/-- Comparing a unique-keyed desired map with itself yields no operation. -/
theorem compareDesiredStates_self {m : DMap} (hnd : (alKeys m).Nodup)
    (hupd : ∀ kv ∈ m, needsUpdate kv.2.roleBinding kv.2.roleBinding = false) :
    compareDesiredStates m m = [] := by
  rw [compareDesiredStates, List.append_eq_nil]
  constructor
  · rw [List.filterMap_eq_nil_iff]
    intro kv hkv
    rw [alLookup_of_mem_nodup hnd hkv]
    simp [hupd kv hkv]
  · rw [List.filterMap_eq_nil_iff]
    intro kv hkv
    rw [alLookup_of_mem_nodup hnd hkv]

/-- The desired map compared with itself (shared between several results):
the spec diff primitive yields no operation on identical unique-keyed maps
produced by the calculator. -/
theorem compareDesiredStates_calc_self (bn : String) (ft : FolderTree) :
    compareDesiredStates (CalculateDesiredRoleBindings bn ft)
      (CalculateDesiredRoleBindings bn ft) = [] := by
  have hwf : DMapAll
      (fun dv => dv.roleBinding = BuildRoleBindingFromTemplate bn dv.ns dv.roleBindingTemplate)
      (CalculateDesiredRoleBindings bn ft) :=
    dmapAll_calc (fun f hf ns hns t ht => rfl) (fun t hpt f hf ns hns => rfl)
  refine compareDesiredStates_self alKeys_nodup_calc ?_
  intro kv hkv
  have h := hwf kv hkv
  rw [h]
  exact needsUpdate_self (alKeys_nodup_build_labels _ _ _)

/-- C6: the spec diff of a policy against itself yields zero operations:
ComputeSpecDiff(P, P) (AnalyzeFolderTreeDiff with old = new = P) emits no
CREATE, no UPDATE and no DELETE, for any policy P. -/
theorem c6_spec_diff_self_empty (P : FolderTree) :
    AnalyzeFolderTreeDiff (some P) P = [] := by
  simpa [AnalyzeFolderTreeDiff] using compareDesiredStates_calc_self P.name P

/-- C2: a template whose propagate field is absent or false produces grants
only for the scopes of a folder that itself declares the template: every
entry of the computed grant set carrying a non-propagating template pairs it
with a namespace of such a folder, so the template never reaches a
descendant-only scope. -/
theorem c2_non_propagating_stays_local (ftName : String) (ft : FolderTree)
    (k : String) (dv : DesiredRoleBinding)
    (hmem : (k, dv) ∈ CalculateDesiredRoleBindings ftName ft)
    (hnp : dv.roleBindingTemplate.propagate ≠ some true) :
    ∃ f ∈ ft.spec.folders,
      dv.roleBindingTemplate ∈ f.roleBindingTemplates ∧ dv.ns ∈ f.namespaces := by
  have h := @dmapAll_calc
    (fun dv => dv.roleBindingTemplate.propagate = some true ∨
      ∃ f ∈ ft.spec.folders,
        dv.roleBindingTemplate ∈ f.roleBindingTemplates ∧ dv.ns ∈ f.namespaces)
    ftName ft
    (fun f hf ns hns t ht => Or.inr ⟨f, hf, ht, hns⟩)
    (fun t hpt f hf ns hns => Or.inl (propagates_iff.mp hpt))
    (k, dv) hmem
  rcases h with h | h
  · exact absurd h hnp
  · exact h

/-! Scenario B of the specification, used as concrete input: folder secrets
has template audit with propagate unset and namespace ns-secrets; a child
folder team owns ns-team. -/

def auditTemplate : RoleBindingTemplate :=
  { name := "audit", subjects := [⟨"User", "rbac.authorization.k8s.io", "auditor", ""⟩],
    roleRef := ⟨"rbac.authorization.k8s.io", "ClusterRole", "view"⟩, propagate := none }

def scenarioB : FolderTree :=
  { name := "sec-tree"
    spec := { tree := some (.mk "secrets" (.cons (.mk "team" .nil) .nil))
              folders := [⟨"secrets", [auditTemplate], ["ns-secrets"]⟩,
                          ⟨"team", [], ["ns-team"]⟩] } }

def scenarioBEntry : DesiredRoleBinding := mkDesired "sec-tree" "ns-secrets" auditTemplate

theorem c2_witness :
    ∃ f ∈ scenarioB.spec.folders,
      scenarioBEntry.roleBindingTemplate ∈ f.roleBindingTemplates ∧
      scenarioBEntry.ns ∈ f.namespaces :=
  c2_non_propagating_stays_local "sec-tree" scenarioB
    (nsNameKey "ns-secrets" (roleBindingName "sec-tree" "audit")) scenarioBEntry
    (by decide) (by decide)

/-- C9: a CREATE operation whose target namespace does not exist is skipped
silently by the executor: it reports success, creates nothing, and leaves
the backend state unchanged. -/
theorem c9_create_missing_namespace_skipped (state : ClusterState)
    (op : RoleBindingOperation) (h : op.ns ∉ state.namespaces) :
    executeCreateOperation state op = .ok state := by
  rw [executeCreateOperation, if_neg h]

def c9State : ClusterState := { namespaces := ["ns-a"], roleBindings := [] }

def c9Op : RoleBindingOperation :=
  { type := .create, ns := "ns-missing", roleBindingTemplate := auditTemplate,
    existingRoleBinding := none,
    desiredRoleBinding := some (BuildRoleBindingFromTemplate "sec-tree" "ns-missing" auditTemplate) }

theorem c9_witness : executeCreateOperation c9State c9Op = .ok c9State :=
  c9_create_missing_namespace_skipped c9State c9Op (by decide)

/-- C7: when the admission request context is unavailable the requester
identity cannot be read, the privilege-escalation validation is skipped
entirely (no operation is attempted) and the request is allowed, on the
create/update path as well as on the delete path. -/
theorem c7_fail_open_without_request (attempt : DryRunOracle) (nowNano : Int)
    (oldFT : Option FolderTree) (newFT ft : FolderTree) :
    validateRBACAuthorizationUpdate none attempt nowNano oldFT newFT = (none, []) ∧
    validateRBACAuthorizationDelete none attempt ft = (none, []) :=
  ⟨rfl, rfl⟩

/-! ## C8: the subject comparison versus set equality -/

theorem alInsert_append_of_not_mem {α : Type} {m : List (String × α)} {k : String} (v : α)
    (h : k ∉ alKeys m) : alInsert m k v = m ++ [(k, v)] := by
  induction m with
  | nil => simp [alInsert]
  | cons hd tl ih =>
    obtain ⟨k0, v0⟩ := hd
    simp only [alKeys, List.map_cons, List.mem_cons] at h
    push_neg at h
    simp only [alInsert, if_neg (Ne.symm h.1), List.cons_append, List.cons.injEq, true_and]
    exact ih (by simpa [alKeys] using h.2)

theorem subjectFold_eq (l : List Subject) : ∀ (m : List (String × Subject)),
    (alKeys m ++ l.map subjectKey).Nodup →
    l.foldl (fun m s => alInsert m (subjectKey s) s) m =
      m ++ l.map (fun s => (subjectKey s, s)) := by
  induction l with
  | nil => intro m h; simp
  | cons s rest ih =>
    intro m h
    simp only [List.map_cons] at h
    rcases List.nodup_append.mp h with ⟨h1, h2, hdisj⟩
    have hnot : subjectKey s ∉ alKeys m :=
      fun hmem => hdisj hmem (List.mem_cons_self _ _)
    simp only [List.foldl_cons]
    rw [alInsert_append_of_not_mem s hnot, ih (m ++ [(subjectKey s, s)]) ?hn]
    · simp
    case hn =>
      have hk : alKeys (m ++ [(subjectKey s, s)]) = alKeys m ++ [subjectKey s] := by
        simp [alKeys]
      rw [hk, List.append_assoc]
      simpa using h

/-- With pairwise-distinct keys the Go map of a subject list keeps every
subject, in order. -/
theorem subjectMap_eq_of_nodup {l : List Subject} (h : (l.map subjectKey).Nodup) :
    subjectMap l = l.map (fun s => (subjectKey s, s)) := by
  rw [subjectMap, subjectFold_eq l [] (by simpa [alKeys] using h)]
  simp

/-- C8 counterexample: with a duplicate subject in the first list,
subjectsEqual accepts two lists that do not denote the same subject set
(bob is only in the second list), and it is not symmetric in its
arguments. -/
theorem c8_counterexample :
    subjectsEqual
      [⟨"User", "rbac.authorization.k8s.io", "alice", ""⟩,
       ⟨"User", "rbac.authorization.k8s.io", "alice", ""⟩]
      [⟨"User", "rbac.authorization.k8s.io", "alice", ""⟩,
       ⟨"User", "rbac.authorization.k8s.io", "bob", ""⟩] = true ∧
    subjectsEqual
      [⟨"User", "rbac.authorization.k8s.io", "alice", ""⟩,
       ⟨"User", "rbac.authorization.k8s.io", "bob", ""⟩]
      [⟨"User", "rbac.authorization.k8s.io", "alice", ""⟩,
       ⟨"User", "rbac.authorization.k8s.io", "alice", ""⟩] = false ∧
    (⟨"User", "rbac.authorization.k8s.io", "bob", ""⟩ : Subject) ∈
      [(⟨"User", "rbac.authorization.k8s.io", "alice", ""⟩ : Subject),
       ⟨"User", "rbac.authorization.k8s.io", "bob", ""⟩] ∧
    (⟨"User", "rbac.authorization.k8s.io", "bob", ""⟩ : Subject) ∉
      [(⟨"User", "rbac.authorization.k8s.io", "alice", ""⟩ : Subject),
       ⟨"User", "rbac.authorization.k8s.io", "alice", ""⟩] := by
  refine ⟨by decide, by decide, by decide, by decide⟩

/-- C8 (amended): on subject lists whose comparison keys
(kind:name:namespace:apiGroup) are pairwise distinct — in particular on any
duplicate-free list of subjects distinguished by that key — subjectsEqual
returns true exactly when the two lists contain the same subjects; order is
immaterial and the comparison is symmetric there.  With duplicate keys it
can accept lists denoting different sets and is not symmetric
(c8_counterexample). -/
theorem c8_amended_subjectsEqual_iff_set_eq {a b : List Subject}
    (ha : (a.map subjectKey).Nodup) (hb : (b.map subjectKey).Nodup) :
    subjectsEqual a b = true ↔ ∀ s : Subject, s ∈ a ↔ s ∈ b := by
  have hga : a.Nodup := ha.of_map
  have hgb : b.Nodup := hb.of_map
  constructor
  · intro h
    have hlen : a.length = b.length := by
      by_contra hlen
      rw [subjectsEqual, if_pos hlen] at h
      exact Bool.false_ne_true h
    have hall := List.all_eq_true.mp (by
      rw [subjectsEqual, if_neg (by simpa using hlen)] at h
      exact h)
    have hsub : a ⊆ b := by
      intro s hs
      have hpair : (subjectKey s, s) ∈ subjectMap a := by
        rw [subjectMap_eq_of_nodup ha]
        exact List.mem_map_of_mem _ hs
      have hthis := hall _ hpair
      cases hlk : alLookup (subjectMap b) (subjectKey s) with
      | none =>
        rw [hlk] at hthis
        simp at hthis
      | some sb =>
        rw [hlk] at hthis
        simp only [decide_eq_true_eq] at hthis
        have hmem2 := alLookup_mem hlk
        rw [subjectMap_eq_of_nodup hb] at hmem2
        rcases List.mem_map.mp hmem2 with ⟨s2, hs2, heq⟩
        have : s2 = sb := congrArg Prod.snd heq
        rw [hthis, ← this]
        exact hs2
    have hperm : a.Perm b :=
      (List.subperm_of_subset hga hsub).perm_of_length_le (le_of_eq hlen.symm)
    exact fun s => hperm.mem_iff
  · intro hset
    have hsub : a ⊆ b := fun s hs => (hset s).mp hs
    have hsub2 : b ⊆ a := fun s hs => (hset s).mpr hs
    have hlen : a.length = b.length :=
      le_antisymm (List.subperm_of_subset hga hsub).length_le
        (List.subperm_of_subset hgb hsub2).length_le
    rw [subjectsEqual, if_neg (by simpa using hlen)]
    rw [List.all_eq_true]
    intro ks hks
    rw [subjectMap_eq_of_nodup ha] at hks
    rcases List.mem_map.mp hks with ⟨s, hs, heq⟩
    subst heq
    have hmb : ((subjectKey s, s) : String × Subject) ∈ subjectMap b := by
      rw [subjectMap_eq_of_nodup hb]
      exact List.mem_map_of_mem _ (hsub hs)
    rw [alLookup_of_mem_nodup (alKeys_nodup_subjectMap b) hmb]
    simp

def c8A : List Subject :=
  [⟨"User", "rbac.authorization.k8s.io", "alice", ""⟩,
   ⟨"User", "rbac.authorization.k8s.io", "bob", ""⟩]

def c8B : List Subject :=
  [⟨"User", "rbac.authorization.k8s.io", "bob", ""⟩,
   ⟨"User", "rbac.authorization.k8s.io", "alice", ""⟩]

theorem c8_witness : subjectsEqual c8A c8B = true :=
  (c8_amended_subjectsEqual_iff_set_eq (by decide) (by decide)).mpr
    (by intro s; simp [c8A, c8B]; tauto)

/-! ## C10: cluster diff targets only tracked live RoleBindings -/

theorem mem_rbFold {l : List RoleBinding} : ∀ (m : List (String × RoleBinding))
    {kv : String × RoleBinding},
    kv ∈ l.foldl (fun m rb => alInsert m (nsNameKey rb.ns rb.name) rb) m →
    kv ∈ m ∨ kv.2 ∈ l := by
  induction l with
  | nil => exact fun m kv h => Or.inl h
  | cons rb rest ih =>
    intro m kv h
    simp only [List.foldl_cons] at h
    rcases ih _ h with h' | h'
    · rcases mem_alInsert h' with h'' | h''
      · refine Or.inr ?_
        rw [h'']
        exact List.mem_cons_self _ _
      · exact Or.inl h''
    · exact Or.inr (List.mem_cons_of_mem _ h')

/-- Every entry of the live map listed by the tracking label is a cluster
RoleBinding carrying that label with the policy name. -/
theorem getExisting_spec {cluster : ClusterState} {ftName : String}
    {kv : String × RoleBinding} (h : kv ∈ getExistingRoleBindings cluster ftName) :
    kv.2 ∈ cluster.roleBindings ∧ alLookup kv.2.labels treeLabelKey = some ftName := by
  rw [getExistingRoleBindings] at h
  rcases mem_rbFold _ h with h' | h'
  · simp at h'
  · have hm := List.mem_filter.mp h'
    exact ⟨hm.1, of_decide_eq_true hm.2⟩

/-- C10: every UPDATE or DELETE the cluster diff emits targets an existing
RoleBinding drawn from the live list filtered by the tracking label
foldertree.rbac.kubevirt.io/tree = policy name; an unlabeled RoleBinding is
never the target of an update or delete of a reconciliation pass. -/
theorem c10_cluster_diff_targets_labeled (cluster : ClusterState) (ft : FolderTree)
    (op : RoleBindingOperation) (hop : op ∈ AnalyzeDiff cluster ft)
    (hty : op.type = OperationType.update ∨ op.type = OperationType.delete) :
    ∃ rb, op.existingRoleBinding = some rb ∧ rb ∈ cluster.roleBindings ∧
      alLookup rb.labels treeLabelKey = some ft.name := by
  rw [AnalyzeDiff, compareAndGenerateOperations] at hop
  rcases List.mem_append.mp hop with h | h
  · rcases List.mem_filterMap.mp h with ⟨kv, hkv, hf⟩
    split at hf
    · rename_i ex hlk
      split at hf
      · injection hf with hf
        subst hf
        exact ⟨ex, rfl, getExisting_spec (alLookup_mem hlk)⟩
      · exact absurd hf (by simp)
    · rename_i hlk
      injection hf with hf
      subst hf
      rcases hty with h' | h' <;> simp at h'
  · rcases List.mem_filterMap.mp h with ⟨kv, hkv, hf⟩
    split at hf
    · rename_i d hlk
      simp at hf
    · rename_i hlk
      injection hf with hf
      subst hf
      exact ⟨kv.2, rfl, getExisting_spec hkv⟩

def c10RB : RoleBinding :=
  { name := "foldertree-t1-old", ns := "ns1",
    labels := [("app.kubernetes.io/managed-by", "foldertree-controller"),
               (treeLabelKey, "t1"),
               ("foldertree.rbac.kubevirt.io/role-binding-template", "old")],
    subjects := [], roleRef := ⟨"rbac.authorization.k8s.io", "ClusterRole", "view"⟩ }

def c10Cluster : ClusterState := { namespaces := ["ns1"], roleBindings := [c10RB] }

def c10FT : FolderTree := { name := "t1", spec := { tree := none, folders := [] } }

def c10Op : RoleBindingOperation :=
  { type := .delete, ns := "ns1", roleBindingTemplate := ⟨"", [], ⟨"", "", ""⟩, none⟩,
    existingRoleBinding := some c10RB, desiredRoleBinding := none }

theorem c10_witness :
    ∃ rb, c10Op.existingRoleBinding = some rb ∧ rb ∈ c10Cluster.roleBindings ∧
      alLookup rb.labels treeLabelKey = some c10FT.name :=
  c10_cluster_diff_targets_labeled c10Cluster c10FT c10Op (by decide) (by decide)

/-! ## C4: renames and the spec diff -/

theorem string_append_left_cancel (a : String) {b c : String} (h : a ++ b = a ++ c) : b = c := by
  have h2 : (a ++ b).data = (a ++ c).data := congrArg String.data h
  have h3 : a.data ++ b.data = a.data ++ c.data := h2
  have h4 := List.append_cancel_left h3
  cases b
  cases c
  exact congrArg String.mk h4

/-- Two grants of the same policy in the same namespace share their
namespace/name key only when they come from templates of the same name. -/
theorem nsNameKey_template_inj {ns n t1 t2 : String}
    (h : nsNameKey ns (roleBindingName n t1) = nsNameKey ns (roleBindingName n t2)) :
    t1 = t2 := by
  have h1 : roleBindingName n t1 = roleBindingName n t2 :=
    string_append_left_cancel (ns ++ "/") h
  exact string_append_left_cancel ("foldertree-" ++ n ++ "-") h1

/-- C4 counterexample input: the same single-folder policy under two
different policy names (a pure policy rename with identical spec). -/
def c4OldFT : FolderTree :=
  { name := "alpha"
    spec := { tree := none, folders := [⟨"f", [auditTemplate], ["ns1"]⟩] } }

def c4NewFT : FolderTree :=
  { name := "beta"
    spec := { tree := none, folders := [⟨"f", [auditTemplate], ["ns1"]⟩] } }

/-- C4 counterexample: a pure policy-name rename (alpha to beta, identical
spec) produces NO operations from the spec diff — no DELETE under the old
derived name and no CREATE under the new one — because the webhook diff
derives both the old and the new desired grant names from the builder
FolderTree, which is the new object. -/
theorem c4_counterexample :
    AnalyzeFolderTreeDiff (some c4OldFT) c4NewFT = [] ∧
    c4OldFT.name ≠ c4NewFT.name ∧
    c4OldFT.spec.folders = c4NewFT.spec.folders :=
  ⟨by decide, by decide, rfl⟩

/-- C4 (amended): a template rename with unchanged subjects and
permissionRef yields exactly a CREATE of the grant under the new derived
name and a DELETE under the old derived name and never an UPDATE, because
grant identity is derived from the template name; a pure policy-name rename
with unchanged spec, however, yields no operations at all, because the spec
diff derives both old and new grant names from the new (builder) policy
name — policy renames are invisible to it (object names are immutable in a
Kubernetes update, so this case cannot arise in an admission request). -/
theorem c4_amended_rename_behaviour :
    (∀ (n fname ns t1 t2 : String) (subs : List Subject) (rr : RoleRef) (p : Option Bool),
      t1 ≠ t2 →
      AnalyzeFolderTreeDiff
        (some ⟨n, ⟨none, [⟨fname, [⟨t1, subs, rr, p⟩], [ns]⟩]⟩⟩)
        ⟨n, ⟨none, [⟨fname, [⟨t2, subs, rr, p⟩], [ns]⟩]⟩⟩ =
      [{ type := .create, ns := ns, roleBindingTemplate := ⟨t2, subs, rr, p⟩,
         existingRoleBinding := none,
         desiredRoleBinding := some (BuildRoleBindingFromTemplate n ns ⟨t2, subs, rr, p⟩) },
       { type := .delete, ns := ns, roleBindingTemplate := ⟨t1, subs, rr, p⟩,
         existingRoleBinding := some (BuildRoleBindingFromTemplate n ns ⟨t1, subs, rr, p⟩),
         desiredRoleBinding := none }]) ∧
    (∀ (n1 n2 : String) (sp : FolderTreeSpec),
      AnalyzeFolderTreeDiff (some ⟨n1, sp⟩) ⟨n2, sp⟩ = []) := by
  constructor
  · intro n fname ns t1 t2 subs rr p hne
    have hkey : nsNameKey ns (roleBindingName n t1) ≠ nsNameKey ns (roleBindingName n t2) :=
      fun h => hne (nsNameKey_template_inj h)
    show compareDesiredStates
      [(nsNameKey ns (roleBindingName n t1), mkDesired n ns ⟨t1, subs, rr, p⟩)]
      [(nsNameKey ns (roleBindingName n t2), mkDesired n ns ⟨t2, subs, rr, p⟩)] = _
    rw [compareDesiredStates]
    simp [alLookup, hkey, Ne.symm hkey, mkDesired]
  · intro n1 n2 sp
    show compareDesiredStates (CalculateDesiredRoleBindings n2 ⟨n1, sp⟩)
      (CalculateDesiredRoleBindings n2 ⟨n2, sp⟩) = []
    exact compareDesiredStates_calc_self n2 ⟨n2, sp⟩

theorem c4_witness :
    AnalyzeFolderTreeDiff
      (some ⟨"n", ⟨none, [⟨"f", [⟨"t1", [], ⟨"g", "ClusterRole", "view"⟩, none⟩], ["ns1"]⟩]⟩⟩)
      ⟨"n", ⟨none, [⟨"f", [⟨"t2", [], ⟨"g", "ClusterRole", "view"⟩, none⟩], ["ns1"]⟩]⟩⟩ =
    [{ type := .create, ns := "ns1",
       roleBindingTemplate := ⟨"t2", [], ⟨"g", "ClusterRole", "view"⟩, none⟩,
       existingRoleBinding := none,
       desiredRoleBinding := some (BuildRoleBindingFromTemplate "n" "ns1"
         ⟨"t2", [], ⟨"g", "ClusterRole", "view"⟩, none⟩) },
     { type := .delete, ns := "ns1",
       roleBindingTemplate := ⟨"t1", [], ⟨"g", "ClusterRole", "view"⟩, none⟩,
       existingRoleBinding := some (BuildRoleBindingFromTemplate "n" "ns1"
         ⟨"t1", [], ⟨"g", "ClusterRole", "view"⟩, none⟩),
       desiredRoleBinding := none }] :=
  c4_amended_rename_behaviour.1 "n" "f" "ns1" "t1" "t2" []
    ⟨"g", "ClusterRole", "view"⟩ none (by decide)

/-! ## C1: impersonated dry-run validation is fail-closed with contextual errors -/

/-- sub occurs inside s (substring containment). -/
def embeds (s sub : String) : Prop := sub.data <:+: s.data

theorem embeds_refl (s : String) : embeds s s := List.infix_refl _

instance (s sub : String) : Decidable (embeds s sub) :=
  inferInstanceAs (Decidable (sub.data <:+: s.data))

theorem embeds_trans {s m sub : String} (h1 : embeds m sub) (h2 : embeds s m) :
    embeds s sub := List.IsInfix.trans h1 h2

theorem embeds_append_left {s a : String} (b : String) (h : embeds a s) :
    embeds (a ++ b) s :=
  h.trans ((List.prefix_append a.data b.data).isInfix)

theorem embeds_append_right {s b : String} (a : String) (h : embeds b s) :
    embeds (a ++ b) s :=
  h.trans ((List.suffix_append a.data b.data).isInfix)

/-- The keyword naming the operation kind inside the description. -/
def opTypeStr : OperationType → String
  | .create => "CREATE"
  | .update => "UPDATE"
  | .delete => "DELETE"

/-- The operation description embeds the kind keyword, the namespace, the
displayed RoleBinding name, and — for create and update — the template
name printed by the description. -/
theorem opString_embeds (op : RoleBindingOperation) :
    embeds (opString op) (opTypeStr op.type) ∧ embeds (opString op) op.ns ∧
    embeds (opString op) (displayedName op) ∧
    (op.type ≠ OperationType.delete → embeds (opString op) op.roleBindingTemplate.name) := by
  obtain ⟨ty, ns, rbt, ex, des⟩ := op
  cases ty with
  | create =>
    refine ⟨?_, ?_, ?_, fun _ => ?_⟩
    · exact embeds_append_left _ (embeds_append_left _ (embeds_append_left _
        (embeds_append_left _ (embeds_append_left _ (embeds_append_left _
          (show embeds "CREATE RoleBinding \x27" "CREATE" by decide))))))
    · exact embeds_append_left _ (embeds_append_left _ (embeds_append_left _
        (embeds_append_right _ (embeds_refl _))))
    · exact embeds_append_left _ (embeds_append_left _ (embeds_append_left _
        (embeds_append_left _ (embeds_append_left _
          (embeds_append_right _ (embeds_refl _))))))
    · exact embeds_append_left _ (embeds_append_right _ (embeds_refl _))
  | update =>
    refine ⟨?_, ?_, ?_, fun _ => ?_⟩
    · exact embeds_append_left _ (embeds_append_left _ (embeds_append_left _
        (embeds_append_left _ (embeds_append_left _ (embeds_append_left _
          (show embeds "UPDATE RoleBinding \x27" "UPDATE" by decide))))))
    · exact embeds_append_left _ (embeds_append_left _ (embeds_append_left _
        (embeds_append_right _ (embeds_refl _))))
    · exact embeds_append_left _ (embeds_append_left _ (embeds_append_left _
        (embeds_append_left _ (embeds_append_left _
          (embeds_append_right _ (embeds_refl _))))))
    · exact embeds_append_left _ (embeds_append_right _ (embeds_refl _))
  | delete =>
    refine ⟨?_, ?_, ?_, fun h => absurd rfl h⟩
    · exact embeds_append_left _ (embeds_append_left _ (embeds_append_left _
        (embeds_append_left _ (show embeds "DELETE RoleBinding \x27" "DELETE" by decide))))
    · exact embeds_append_left _ (embeds_append_right _ (embeds_refl _))
    · exact embeds_append_left _ (embeds_append_left _ (embeds_append_left _
        (embeds_append_right _ (embeds_refl _))))

/-- Shape invariant of the operations a spec diff produces, with the
builder FolderTree name bn: pointers the description needs are present, and
a delete always targets a grant whose name derives from its template. -/
def opWellFormed (bn : String) (op : RoleBindingOperation) : Prop :=
  match op.type with
  | .create => ∃ rb, op.desiredRoleBinding = some rb
  | .update => ∃ rb, op.existingRoleBinding = some rb
  | .delete => ∃ rb, op.existingRoleBinding = some rb ∧
      rb.name = roleBindingName bn op.roleBindingTemplate.name

theorem mem_compareDesiredStates_wf {bn : String} {oldD newD : DMap}
    (hold : DMapAll (fun dv =>
      dv.roleBinding = BuildRoleBindingFromTemplate bn dv.ns dv.roleBindingTemplate) oldD)
    {op : RoleBindingOperation} (hop : op ∈ compareDesiredStates oldD newD) :
    opWellFormed bn op := by
  rw [compareDesiredStates] at hop
  rcases List.mem_append.mp hop with h | h
  · rcases List.mem_filterMap.mp h with ⟨kv, hkv, hf⟩
    split at hf
    · rename_i oldRB hlk
      split at hf
      · injection hf with hf
        subst hf
        exact ⟨oldRB.roleBinding, rfl⟩
      · exact Option.noConfusion hf
    · injection hf with hf
      subst hf
      exact ⟨kv.2.roleBinding, rfl⟩
  · rcases List.mem_filterMap.mp h with ⟨kv, hkv, hf⟩
    split at hf
    · exact Option.noConfusion hf
    · injection hf with hf
      subst hf
      refine ⟨kv.2.roleBinding, rfl, ?_⟩
      rw [hold kv hkv]
      rfl

theorem analyzeFolderTreeDiff_wf {oldFT : Option FolderTree} {newFT : FolderTree}
    {op : RoleBindingOperation} (hop : op ∈ AnalyzeFolderTreeDiff oldFT newFT) :
    opWellFormed newFT.name op := by
  cases oldFT with
  | none =>
    refine mem_compareDesiredStates_wf ?_
      (show op ∈ compareDesiredStates []
        (CalculateDesiredRoleBindings newFT.name newFT) from hop)
    intro kv hkv
    simp at hkv
  | some o =>
    exact mem_compareDesiredStates_wf
      (dmapAll_calc (fun f hf ns hns t ht => rfl) (fun t hpt f hf ns hns => rfl))
      (show op ∈ compareDesiredStates (CalculateDesiredRoleBindings newFT.name o)
        (CalculateDesiredRoleBindings newFT.name newFT) from hop)

theorem validateOps_none_iff (attempt : DryRunOracle) (nowNano : Int) :
    ∀ ops : List RoleBindingOperation,
      (validateOperationsWithImpersonation attempt nowNano ops).1 = none ↔
      ∀ op ∈ ops, validateSingleOperation attempt nowNano op = none := by
  intro ops
  induction ops with
  | nil => simp [validateOperationsWithImpersonation]
  | cons op rest ih =>
    rw [validateOperationsWithImpersonation]
    cases hv : validateSingleOperation attempt nowNano op with
    | some e =>
      simp only [List.mem_cons]
      constructor
      · intro h
        exact Option.noConfusion h
      · intro h
        exact absurd hv (by rw [h op (Or.inl rfl)]; exact fun h' => Option.noConfusion h')
    | none =>
      simp only [List.mem_cons]
      constructor
      · intro h op' hmem
        rcases hmem with h' | h'
        · rw [h']
          exact hv
        · exact (ih.mp h) op' h'
      · intro h
        exact ih.mpr fun op' h' => h op' (Or.inr h')

theorem validateOps_some (attempt : DryRunOracle) (nowNano : Int) :
    ∀ (ops : List RoleBindingOperation) (err : String),
      (validateOperationsWithImpersonation attempt nowNano ops).1 = some err →
      ∃ op ∈ ops, ∃ e, validateSingleOperation attempt nowNano op = some e ∧
        err = "failed to validate " ++ opString op ++ ": " ++ e := by
  intro ops
  induction ops with
  | nil =>
    intro err h
    exact Option.noConfusion h
  | cons op rest ih =>
    intro err h
    rw [validateOperationsWithImpersonation] at h
    cases hv : validateSingleOperation attempt nowNano op with
    | some e =>
      rw [hv] at h
      injection h with h
      exact ⟨op, List.mem_cons_self _ _, e, hv, h.symm⟩
    | none =>
      rw [hv] at h
      rcases ih err h with ⟨op', hmem, e, he, herr⟩
      exact ⟨op', List.mem_cons_of_mem _ hmem, e, he, herr⟩

/-- C1: for a CREATE or UPDATE admission request the validator computes the
spec diff between the old and new desired grant sets and attempts every
resulting operation as an impersonated dry-run; the request is admitted iff
every single dry-run succeeds (fail-closed), and when it is rejected the
returned error embeds the failing operation kind, the scope (namespace),
the grant (RoleBinding) name, and the template name — for a delete the
description omits the template field but the embedded grant name
foldertree-(policy)-(template) carries the template name. -/
theorem c1_impersonated_diff_fail_closed (oldFT : Option FolderTree) (newFT : FolderTree)
    (attempt : DryRunOracle) (nowNano : Int) :
    ((validateOperationsWithImpersonation attempt nowNano
        (AnalyzeFolderTreeDiff oldFT newFT)).1 = none ↔
      ∀ op ∈ AnalyzeFolderTreeDiff oldFT newFT,
        validateSingleOperation attempt nowNano op = none) ∧
    (∀ err, (validateOperationsWithImpersonation attempt nowNano
        (AnalyzeFolderTreeDiff oldFT newFT)).1 = some err →
      ∃ op ∈ AnalyzeFolderTreeDiff oldFT newFT,
        validateSingleOperation attempt nowNano op ≠ none ∧
        embeds err (opTypeStr op.type) ∧ embeds err op.ns ∧
        embeds err (displayedName op) ∧ embeds err op.roleBindingTemplate.name) := by
  refine ⟨validateOps_none_iff attempt nowNano _, ?_⟩
  intro err herr
  rcases validateOps_some attempt nowNano _ err herr with ⟨op, hmem, e, he, heq⟩
  have hwf := analyzeFolderTreeDiff_wf hmem
  obtain ⟨hk, hns, hdn, htn⟩ := opString_embeds op
  subst heq
  have Hk : embeds ("failed to validate " ++ opString op ++ ": " ++ e)
      (opTypeStr op.type) :=
    embeds_append_left _ (embeds_append_left _ (embeds_append_right _ hk))
  have Hns : embeds ("failed to validate " ++ opString op ++ ": " ++ e) op.ns :=
    embeds_append_left _ (embeds_append_left _ (embeds_append_right _ hns))
  have Hdn : embeds ("failed to validate " ++ opString op ++ ": " ++ e)
      (displayedName op) :=
    embeds_append_left _ (embeds_append_left _ (embeds_append_right _ hdn))
  refine ⟨op, hmem, fun h0 => Option.noConfusion (he.symm.trans h0), Hk, Hns, Hdn, ?_⟩
  cases hty : op.type with
  | create =>
    exact embeds_append_left _ (embeds_append_left _
      (embeds_append_right _ (htn (by rw [hty]; intro h; exact OperationType.noConfusion h))))
  | update =>
    exact embeds_append_left _ (embeds_append_left _
      (embeds_append_right _ (htn (by rw [hty]; intro h; exact OperationType.noConfusion h))))
  | delete =>
    rw [opWellFormed, hty] at hwf
    rcases hwf with ⟨rb, hex, hname⟩
    have hd : displayedName op = rb.name := by
      rw [displayedName, hty, hex]
      rfl
    refine embeds_trans ?_ Hdn
    rw [hd, hname]
    exact embeds_append_right _ (embeds_refl _)

def c1Template : RoleBindingTemplate :=
  { name := "tmpl", subjects := [], roleRef := ⟨"g", "ClusterRole", "edit"⟩, propagate := none }

def c1FT : FolderTree :=
  { name := "w1", spec := { tree := none, folders := [⟨"f", [c1Template], ["ns1"]⟩] } }

def c1Attempt : DryRunOracle := fun _ _ => some "denied"

def c1Op : RoleBindingOperation :=
  { type := .create, ns := "ns1", roleBindingTemplate := c1Template,
    existingRoleBinding := none,
    desiredRoleBinding := some (BuildRoleBindingFromTemplate "w1" "ns1" c1Template) }

def c1Err : String :=
  "failed to validate " ++ opString c1Op ++ ": " ++
    "dry-run creation failed (user lacks required permissions): denied"

theorem c1_witness :
    ∃ err, (validateOperationsWithImpersonation c1Attempt 0
        (AnalyzeFolderTreeDiff none c1FT)).1 = some err ∧
      ∃ op ∈ AnalyzeFolderTreeDiff none c1FT,
        validateSingleOperation c1Attempt 0 op ≠ none ∧
        embeds err (opTypeStr op.type) ∧ embeds err op.ns ∧
        embeds err (displayedName op) ∧ embeds err op.roleBindingTemplate.name :=
  ⟨c1Err, by decide,
    (c1_impersonated_diff_fail_closed none c1FT c1Attempt 0).2 c1Err (by decide)⟩

/-! ## C3: deletion validates the full grant set, one dry-run per grant -/

/-- Under an all-admitting backend the delete-validation loop attempts
exactly one impersonated DELETE per entry of the map, in order. -/
theorem deleteValidationLoop_all_ok (attempt : DryRunOracle)
    (hok : ∀ rb, attempt ApiVerb.delete rb = none) :
    ∀ m : DMap, deleteValidationLoop attempt m =
      (none, m.map fun kv =>
        { type := .delete, ns := kv.2.ns, roleBindingTemplate := kv.2.roleBindingTemplate,
          existingRoleBinding := some kv.2.roleBinding, desiredRoleBinding := none }) := by
  intro m
  induction m with
  | nil => rfl
  | cons kv rest ih =>
    obtain ⟨k, dv⟩ := kv
    rw [deleteValidationLoop]
    simp only [validateDeleteOperation, hok, ih, List.map_cons]

/-- Scenario C of the specification: the root folder carries one
propagate-true template and owns no namespace; three descendant folders own
one namespace each. -/
def scenarioCAdmin : RoleBindingTemplate :=
  { name := "admin", subjects := [⟨"User", "rbac.authorization.k8s.io", "boss", ""⟩],
    roleRef := ⟨"rbac.authorization.k8s.io", "ClusterRole", "admin"⟩, propagate := some true }

def scenarioC : FolderTree :=
  { name := "del-tree"
    spec := { tree := some (.mk "root" (.cons (.mk "a" .nil)
                (.cons (.mk "b" .nil) (.cons (.mk "c" .nil) .nil))))
              folders := [⟨"root", [scenarioCAdmin], []⟩,
                          ⟨"a", [], ["ns-a"]⟩, ⟨"b", [], ["ns-b"]⟩, ⟨"c", [], ["ns-c"]⟩] } }

/-- C3: a DELETE admission request from a requester other than the two
trusted identities computes the full grant set (no diff) and attempts
exactly one impersonated dry-run DELETE per grant; in particular Scenario C
attempts exactly 3 dry-run deletes. -/
theorem c3_delete_validates_full_grant_set (r : AdmissionRequest) (attempt : DryRunOracle)
    (h1 : r.userInfo.username ≠ "system:serviceaccount:folders-system:folder-controller-manager")
    (h2 : r.userInfo.username ≠ "system:admin")
    (hok : ∀ rb, attempt ApiVerb.delete rb = none) :
    (∀ ft : FolderTree,
      validateRBACAuthorizationDelete (some r) attempt ft =
        (none, (CalculateDesiredRoleBindings ft.name ft).map fun kv =>
          { type := .delete, ns := kv.2.ns, roleBindingTemplate := kv.2.roleBindingTemplate,
            existingRoleBinding := some kv.2.roleBinding, desiredRoleBinding := none })) ∧
    (validateRBACAuthorizationDelete (some r) attempt scenarioC).2.length = 3 := by
  have hmain : ∀ ft : FolderTree,
      validateRBACAuthorizationDelete (some r) attempt ft =
        (none, (CalculateDesiredRoleBindings ft.name ft).map fun kv =>
          { type := .delete, ns := kv.2.ns, roleBindingTemplate := kv.2.roleBindingTemplate,
            existingRoleBinding := some kv.2.roleBinding, desiredRoleBinding := none }) := by
    intro ft
    rw [validateRBACAuthorizationDelete, if_neg (by push_neg; exact ⟨h1, h2⟩)]
    exact deleteValidationLoop_all_ok attempt hok _
  refine ⟨hmain, ?_⟩
  rw [hmain scenarioC]
  simp only [List.length_map]
  decide

def c3Request : AdmissionRequest :=
  { userInfo := { username := "alice", groups := [], uid := "u1" }, subResource := "" }

def c3Attempt : DryRunOracle := fun _ _ => none

theorem c3_witness :
    (validateRBACAuthorizationDelete (some c3Request) c3Attempt scenarioC).2.length = 3 :=
  (c3_delete_validates_full_grant_set c3Request c3Attempt (by decide) (by decide)
    (fun rb => rfl)).2

/-! ## C5: a propagate-true template reaches every scope of the subtree -/

/-- InSubtree root d: d is root itself or a node of the subtree below it. -/
inductive InSubtree : TreeNode → TreeNode → Prop where
  | refl (n : TreeNode) : InSubtree n n
  | child {n c d : TreeNode} :
      c ∈ (TreeNode.subfolders n).toList → InSubtree c d → InSubtree n d

/-- The desired map has an entry under key k. -/
def keyPresent (m : DMap) (k : String) : Prop := (alLookup m k).isSome

theorem keyPresent_alInsert {m : DMap} {k : String} (k' : String) (v : DesiredRoleBinding)
    (h : keyPresent m k) : keyPresent (alInsert m k' v) k := by
  by_cases he : k' = k
  · subst he
    rw [keyPresent, alLookup_alInsert_self]
    rfl
  · rw [keyPresent, alLookup_alInsert_ne _ _ _ _ (Ne.symm he)]
    exact h

theorem keyPresent_alInsert_self (m : DMap) (k : String) (v : DesiredRoleBinding) :
    keyPresent (alInsert m k v) k := by
  rw [keyPresent, alLookup_alInsert_self]
  rfl

theorem keyPresent_insertTemplates_mono {ftName ns : String}
    {ts : List RoleBindingTemplate} {d : DMap} {k : String}
    (h : keyPresent d k) : keyPresent (insertTemplates ftName ns ts d) k := by
  induction ts generalizing d with
  | nil => exact h
  | cons t rest ih => exact ih (keyPresent_alInsert _ _ h)

theorem keyPresent_insertTemplates_mem {ftName ns : String}
    {ts : List RoleBindingTemplate} {d : DMap} {t : RoleBindingTemplate}
    (ht : t ∈ ts) :
    keyPresent (insertTemplates ftName ns ts d)
      (nsNameKey ns (roleBindingName ftName t.name)) := by
  induction ts generalizing d with
  | nil => simp at ht
  | cons t0 rest ih =>
    rcases List.mem_cons.mp ht with h | h
    · subst h
      show keyPresent (insertTemplates ftName ns rest (insertDesired ftName ns t d)) _
      exact keyPresent_insertTemplates_mono (keyPresent_alInsert_self _ _ _)
    · exact ih h

theorem keyPresent_insertFolderGrants_mono {ftName : String}
    {nss : List String} {ts : List RoleBindingTemplate} {d : DMap} {k : String}
    (h : keyPresent d k) : keyPresent (insertFolderGrants ftName nss ts d) k := by
  induction nss generalizing d with
  | nil => exact h
  | cons ns rest ih => exact ih (keyPresent_insertTemplates_mono h)

theorem keyPresent_insertFolderGrants_mem {ftName : String}
    {nss : List String} {ts : List RoleBindingTemplate} {d : DMap}
    {ns : String} {t : RoleBindingTemplate}
    (hns : ns ∈ nss) (ht : t ∈ ts) :
    keyPresent (insertFolderGrants ftName nss ts d)
      (nsNameKey ns (roleBindingName ftName t.name)) := by
  induction nss generalizing d with
  | nil => simp at hns
  | cons ns0 rest ih =>
    rcases List.mem_cons.mp hns with h | h
    · subst h
      show keyPresent (insertFolderGrants ftName rest ts (insertTemplates ftName ns ts d)) _
      exact keyPresent_insertFolderGrants_mono (keyPresent_insertTemplates_mem ht)
    · exact ih h

mutual
theorem keyPresent_calculateFromTreeNode {ftName : String} {folders : List Folder}
    (node : TreeNode) {inherited : List RoleBindingTemplate} {desired : DMap} {k : String}
    (h : keyPresent desired k) :
    keyPresent (calculateFromTreeNode ftName folders node inherited desired) k := by
  rcases node with ⟨name, subs⟩
  rw [calculateFromTreeNode]
  cases folderMapLookup folders name with
  | none => exact keyPresent_calculateFromSubfolders subs h
  | some folder =>
    exact keyPresent_calculateFromSubfolders subs (keyPresent_insertFolderGrants_mono h)
theorem keyPresent_calculateFromSubfolders {ftName : String} {folders : List Folder}
    (nodes : TreeNodeList) {inherited : List RoleBindingTemplate} {desired : DMap} {k : String}
    (h : keyPresent desired k) :
    keyPresent (calculateFromSubfolders ftName folders nodes inherited desired) k := by
  cases nodes with
  | nil => exact h
  | cons n rest =>
    rw [calculateFromSubfolders]
    exact keyPresent_calculateFromSubfolders rest (keyPresent_calculateFromTreeNode n h)
end

/-! A template already in the inherited set reaches every folder-owning
node of the subtree below (and at) the current node. -/

mutual
theorem inherited_present_node {ftName : String} {folders : List Folder}
    (node : TreeNode) {inherited : List RoleBindingTemplate} {desired : DMap}
    {D : TreeNode} {FD : Folder} {ns : String} {t : RoleBindingTemplate}
    (hD : InSubtree node D) (hFD : folderMapLookup folders D.name = some FD)
    (hns : ns ∈ FD.namespaces) (ht : t ∈ inherited) :
    keyPresent (calculateFromTreeNode ftName folders node inherited desired)
      (nsNameKey ns (roleBindingName ftName t.name)) := by
  rcases node with ⟨name, subs⟩
  rw [calculateFromTreeNode]
  cases hD with
  | refl =>
    have hFD2 : folderMapLookup folders name = some FD := hFD
    cases hlook : folderMapLookup folders name with
    | none =>
      rw [hlook] at hFD2
      exact Option.noConfusion hFD2
    | some folder =>
      rw [hlook] at hFD2
      injection hFD2 with hFD2
      subst hFD2
      exact keyPresent_calculateFromSubfolders subs
        (keyPresent_insertFolderGrants_mem hns (List.mem_append_left _ ht))
  | child hc hsub =>
    cases folderMapLookup folders name with
    | none =>
      exact inherited_present_subs subs hc hsub hFD hns ht
    | some folder =>
      exact inherited_present_subs subs hc hsub hFD hns (List.mem_append_left _ ht)
termination_by structural node
theorem inherited_present_subs {ftName : String} {folders : List Folder}
    (nodes : TreeNodeList) {inherited : List RoleBindingTemplate} {desired : DMap}
    {c D : TreeNode} {FD : Folder} {ns : String} {t : RoleBindingTemplate}
    (hc : c ∈ nodes.toList) (hsub : InSubtree c D)
    (hFD : folderMapLookup folders D.name = some FD)
    (hns : ns ∈ FD.namespaces) (ht : t ∈ inherited) :
    keyPresent (calculateFromSubfolders ftName folders nodes inherited desired)
      (nsNameKey ns (roleBindingName ftName t.name)) := by
  cases nodes with
  | nil => simp [TreeNodeList.toList] at hc
  | cons n rest =>
    rw [calculateFromSubfolders]
    rcases List.mem_cons.mp hc with h | h
    · exact keyPresent_calculateFromSubfolders rest
        (inherited_present_node n (h ▸ hsub) hFD hns ht)
    · exact inherited_present_subs rest h hsub hFD hns ht
termination_by structural nodes
end

/-! A propagate-true template declared at a folder-owning node N reaches
every namespace of every folder-owning node in the subtree of N. -/

mutual
theorem propagated_present_node {ftName : String} {folders : List Folder}
    (node : TreeNode) {inherited : List RoleBindingTemplate} {desired : DMap}
    {N D : TreeNode} {F FD : Folder} {ns : String} {t : RoleBindingTemplate}
    (hN : InSubtree node N) (hF : folderMapLookup folders N.name = some F)
    (ht : t ∈ F.roleBindingTemplates) (hp : propagates t = true)
    (hD : InSubtree N D) (hFD : folderMapLookup folders D.name = some FD)
    (hns : ns ∈ FD.namespaces) :
    keyPresent (calculateFromTreeNode ftName folders node inherited desired)
      (nsNameKey ns (roleBindingName ftName t.name)) := by
  rcases node with ⟨name, subs⟩
  rw [calculateFromTreeNode]
  cases hN with
  | refl =>
    have hF2 : folderMapLookup folders name = some F := hF
    cases hlook : folderMapLookup folders name with
    | none =>
      rw [hlook] at hF2
      exact Option.noConfusion hF2
    | some folder =>
      rw [hlook] at hF2
      injection hF2 with hF2
      subst hF2
      cases hD with
      | refl =>
        have hFD2 : folderMapLookup folders name = some FD := hFD
        rw [hlook] at hFD2
        injection hFD2 with hFD2
        subst hFD2
        exact keyPresent_calculateFromSubfolders subs
          (keyPresent_insertFolderGrants_mem hns (List.mem_append_right _ ht))
      | child hc hsub =>
        exact inherited_present_subs subs hc hsub hFD hns
          (List.mem_append_right _ (List.mem_filter.mpr ⟨ht, hp⟩))
  | child hc hsub =>
    cases folderMapLookup folders name with
    | none =>
      exact propagated_present_subs subs hc hsub hF ht hp hD hFD hns
    | some folder =>
      exact propagated_present_subs subs hc hsub hF ht hp hD hFD hns
termination_by structural node
theorem propagated_present_subs {ftName : String} {folders : List Folder}
    (nodes : TreeNodeList) {inherited : List RoleBindingTemplate} {desired : DMap}
    {c N D : TreeNode} {F FD : Folder} {ns : String} {t : RoleBindingTemplate}
    (hc : c ∈ nodes.toList) (hsub : InSubtree c N)
    (hF : folderMapLookup folders N.name = some F)
    (ht : t ∈ F.roleBindingTemplates) (hp : propagates t = true)
    (hD : InSubtree N D) (hFD : folderMapLookup folders D.name = some FD)
    (hns : ns ∈ FD.namespaces) :
    keyPresent (calculateFromSubfolders ftName folders nodes inherited desired)
      (nsNameKey ns (roleBindingName ftName t.name)) := by
  cases nodes with
  | nil => simp [TreeNodeList.toList] at hc
  | cons n rest =>
    rw [calculateFromSubfolders]
    rcases List.mem_cons.mp hc with h | h
    · exact keyPresent_calculateFromSubfolders rest
        (propagated_present_node n (h ▸ hsub) hF ht hp hD hFD hns)
    · exact propagated_present_subs rest h hsub hF ht hp hD hFD hns
termination_by structural nodes
end

/-- The standalone-folder pass of the calculator preserves present keys. -/
theorem keyPresent_standalone_fold {ftName : String} {tree : Option TreeNode}
    (folders : List Folder) (base : DMap) {k : String} (h : keyPresent base k) :
    keyPresent (folders.foldl (fun d folder =>
      if isInTree folder.name tree then d
      else insertFolderGrants ftName folder.namespaces folder.roleBindingTemplates d)
      base) k := by
  induction folders generalizing base with
  | nil => exact h
  | cons g rest ih =>
    simp only [List.foldl_cons]
    refine ih _ ?_
    by_cases hg : isInTree g.name tree
    · simpa [hg] using h
    · simp only [hg, if_false, Bool.false_eq_true]
      exact keyPresent_insertFolderGrants_mono h

/-- C5: a template with propagate = true declared at a folder F reachable
as node N of the policy tree appears — under its derived grant key — in
every namespace of every folder reachable in the subtree of N, including
the namespaces of F itself. -/
theorem c5_propagate_reaches_subtree (ftName : String) (ft : FolderTree)
    (root N D : TreeNode) (hroot : ft.spec.tree = some root)
    (hN : InSubtree root N) (hD : InSubtree N D)
    (F FD : Folder) (hF : folderMapLookup ft.spec.folders N.name = some F)
    (hFD : folderMapLookup ft.spec.folders D.name = some FD)
    (t : RoleBindingTemplate) (ht : t ∈ F.roleBindingTemplates)
    (hp : t.propagate = some true)
    (ns : String) (hns : ns ∈ FD.namespaces) :
    ∃ dv, alLookup (CalculateDesiredRoleBindings ftName ft)
      (nsNameKey ns (roleBindingName ftName t.name)) = some dv := by
  have hkp : keyPresent
      (calculateFromTreeNode ftName ft.spec.folders root [] [])
      (nsNameKey ns (roleBindingName ftName t.name)) :=
    propagated_present_node root hN hF ht (propagates_iff.mpr hp) hD hFD hns
  have hfinal : keyPresent (CalculateDesiredRoleBindings ftName ft)
      (nsNameKey ns (roleBindingName ftName t.name)) := by
    rw [CalculateDesiredRoleBindings, hroot]
    exact keyPresent_standalone_fold ft.spec.folders _ hkp
  exact Option.isSome_iff_exists.mp hfinal

/-! Scenario A of the specification: root folder has template admin
(propagate = true) and no namespace; the child folder dev has a local
template editor and namespace ns1. -/

def scenarioAAdmin : RoleBindingTemplate :=
  { name := "admin", subjects := [⟨"User", "rbac.authorization.k8s.io", "boss", ""⟩],
    roleRef := ⟨"rbac.authorization.k8s.io", "ClusterRole", "admin"⟩, propagate := some true }

def scenarioAEditor : RoleBindingTemplate :=
  { name := "editor", subjects := [⟨"User", "rbac.authorization.k8s.io", "dev1", ""⟩],
    roleRef := ⟨"rbac.authorization.k8s.io", "ClusterRole", "edit"⟩, propagate := none }

def scenarioADev : TreeNode := .mk "dev" .nil

def scenarioARoot : TreeNode := .mk "root" (.cons scenarioADev .nil)

def scenarioA : FolderTree :=
  { name := "a-tree"
    spec := { tree := some scenarioARoot
              folders := [⟨"root", [scenarioAAdmin], []⟩,
                          ⟨"dev", [scenarioAEditor], ["ns1"]⟩] } }

theorem c5_witness :
    ∃ dv, alLookup (CalculateDesiredRoleBindings "a-tree" scenarioA)
      (nsNameKey "ns1" (roleBindingName "a-tree" "admin")) = some dv :=
  c5_propagate_reaches_subtree "a-tree" scenarioA scenarioARoot scenarioARoot scenarioADev
    rfl (InSubtree.refl _)
    (InSubtree.child (List.mem_singleton_self _) (InSubtree.refl _))
    ⟨"root", [scenarioAAdmin], []⟩ ⟨"dev", [scenarioAEditor], ["ns1"]⟩
    (by decide) (by decide) scenarioAAdmin (by decide) rfl "ns1" (by decide)

end FolderTreeProof
